import Mathlib

/-!
# Verification of the country-scraper batch job

Shallow embedding of `src/main.py` (a single-file scraping job) and proofs
about its two core functions, `to_int_from_text` and `scrape_countries_data`,
together with a model of the orchestrating `main` acting on the sqlite store.

Modelling conventions:
* Python `str` is `String` / `List Char`; Python `int` is `ℤ` (values built
  here are naturals cast into `ℤ`).
* Python exceptions are explicit: a function that can raise returns
  `Except PyErr α`.  Only the exceptions reachable from these code paths are
  modelled (`ValueError`, `OverflowError`).
* CPython's `float()` string conversion is correctly-rounded decimal to IEEE-754
  binary64 (round to nearest, ties to even); it is modelled exactly below on
  the sign-free inputs reachable here (the filter in `to_int_from_text` keeps
  only `0-9.eE`, so no sign and no `nan`/`inf` literal can reach `float()`).
-/

set_option maxRecDepth 40000

/-- Exceptions reachable from the embedded code paths. -/
inductive PyErr where
  | valueError
  | overflowError
deriving DecidableEq, Repr

/-- Decidable equality on `Except`, so that concrete runs can be settled by
`decide`. -/
instance {ε α : Type} [DecidableEq ε] [DecidableEq α] : DecidableEq (Except ε α) := fun x y =>
  match x, y with
  | .error a, .error b =>
    if h : a = b then .isTrue (congrArg Except.error h)
    else .isFalse (fun hc => h (Except.error.inj hc))
  | .ok a, .ok b =>
    if h : a = b then .isTrue (congrArg Except.ok h)
    else .isFalse (fun hc => h (Except.ok.inj hc))
  | .error _, .ok _ => .isFalse (fun hc => Except.noConfusion hc)
  | .ok _, .error _ => .isFalse (fun hc => Except.noConfusion hc)

/-! ## Character predicates and `str` helpers -/

/-- ASCII decimal digit `0`-`9`. -/
def isAsciiDigit (c : Char) : Bool := '0' ≤ c && c ≤ '9'

/-- Membership in the filter string `"0123456789.eE"` of `to_int_from_text`
(`src/main.py` line 69). -/
def isAllowed (c : Char) : Bool := isAsciiDigit c || c == '.' || c == 'e' || c == 'E'

/-- Python `str.isdigit`.  True on ASCII digits and on further Unicode digit
characters that are not decimal digits; of those we model the Latin-1
superscripts (`¹²³`, the ones arising in this page's domain, e.g. `km²`).
Note `int()` does not accept the superscripts, see `pyIntOfDigits`. -/
def pyIsdigit (c : Char) : Bool := isAsciiDigit c || c == '¹' || c == '²' || c == '³'

/-- Python `str.isspace` on the ASCII whitespace characters
(space, tab, newline, carriage return, vertical tab, form feed). -/
def pyIsSpace (c : Char) : Bool :=
  c == ' ' || c == '\t' || c == '\n' || c == '\r' || c == '\x0b' || c == '\x0c'

/-- Python `str.strip()`: remove leading and trailing whitespace. -/
def pyStrip (l : List Char) : List Char :=
  ((l.dropWhile pyIsSpace).reverse.dropWhile pyIsSpace).reverse

/-- Lift `pyStrip` to `String`. -/
def pyStripStr (s : String) : String := ⟨pyStrip s.data⟩

/-- The natural number denoted by a list of ASCII digit characters
(most significant first), as read by Python `int()` / `float()`. -/
def natOfDigits (l : List Char) : ℕ := l.foldl (fun n c => 10 * n + (c.toNat - 48)) 0

/-- Python `int(s)` on a nonempty string `s` of characters that passed
`str.isdigit`: `int` accepts decimal digits only, so any non-decimal digit
character (e.g. `²`) raises `ValueError`. -/
def pyIntOfDigits (l : List Char) : Except PyErr (Option ℤ) :=
  if l.all isAsciiDigit then .ok (some ((natOfDigits l : ℕ) : ℤ)) else .error .valueError

/-! ## IEEE-754 binary64 rounding (model of CPython `float(str)`)

A finite double is `M * 2^dn / 2^up` with `M < 2^53` (normal values have
`2^52 ≤ M`, subnormals have `up = 1074, dn = 0`).  Rounding a nonnegative
rational `A/B` to the nearest double:

* let `e = ⌊log2 (A/B)⌋`; the unit in the last place has exponent
  `p = max (e - 52) (-1074)` (the second argument handles subnormals);
* round `A/B * 2^(-p)` to the nearest integer `M`, ties to even;
* the result overflows to `inf` exactly when `M * 2^p ≥ 2^1024`.

`⌊log2 (A/B)⌋` is computed as `log2 ⌊A * 2^1200 / B⌋ - 1200`: for values
`≥ 2^-1200` this is exact, and for smaller values the computed `M` is `0`
either way (such values are below half the least subnormal). -/

/-- Round half to even: nearest integer to `a / b` (for `b ≠ 0`), ties to the
even neighbour. -/
def rhe (a b : ℕ) : ℕ :=
  let q := a / b
  let r := a % b
  if 2 * r < b then q
  else if b < 2 * r then q + 1
  else if q % 2 = 0 then q else q + 1

/-- Base-2 logarithm for fuel-bounded inputs, by raw `Nat.rec` so that kernel
reduction stays lazy (one unfolding per halving). -/
def log2small (fuel : ℕ) : ℕ → ℕ :=
  Nat.rec (motive := fun _ => ℕ → ℕ) (fun _ => 0)
    (fun _ ih m => if m < 2 then 0 else ih (m / 2) + 1) fuel

/-- Base-2 logarithm, chunked: strips 64 bits per fuel step, then finishes
with `log2small`; keeps kernel reduction depth near `log2 n / 64`. -/
def log2big (fuel : ℕ) : ℕ → ℕ :=
  Nat.rec (motive := fun _ => ℕ → ℕ) (fun m => log2small m m)
    (fun _ ih m =>
      if m < 18446744073709551616 then log2small m m
      else ih (m / 18446744073709551616) + 64) fuel

/-- Floor base-2 logarithm: `nlog2 n = ⌊log2 n⌋` for `n ≥ 1` (and `0` at `0`); executable in the
kernel on numbers thousands of bits wide. -/
def nlog2 (n : ℕ) : ℕ := log2big n n

/-- An IEEE-754 binary64 value as reachable from the embedded parse: a
nonnegative finite value `M * 2^dn / 2^up`, or `+inf`. -/
inductive PyFloat where
  | finite (M up dn : ℕ)
  | inf
deriving DecidableEq, Repr

/-- Round the nonnegative rational `A / B` (`B ≠ 0`) to the nearest binary64
value, ties to even, overflowing to `inf` at `2^1024`. -/
def roundToDouble (A B : ℕ) : PyFloat :=
  if A = 0 then .finite 0 0 0
  else
    let e : ℤ := (nlog2 (A * 2 ^ 1200 / B) : ℤ) - 1200
    let p : ℤ := max (e - 52) (-1074)
    let up : ℕ := (-p).toNat
    let dn : ℕ := p.toNat
    let M : ℕ := rhe (A * 2 ^ up) (B * 2 ^ dn)
    if 2 ^ (1024 + up) ≤ M * 2 ^ dn then .inf else .finite M up dn

/-- Python `int(f)` on a float: truncate toward zero (here all values are
nonnegative, so floor); `int(inf)` raises `OverflowError` — which the
`except ValueError` in `to_int_from_text` does not catch. -/
def pyIntTrunc : PyFloat → Except PyErr ℤ
  | .finite M up dn => .ok ((M * 2 ^ dn / 2 ^ up : ℕ) : ℤ)
  | .inf => .error .overflowError

/-! ## The grammar of `float()` literals over the filtered alphabet

After the filter only `0-9`, `.`, `e`, `E` remain, so the acceptable float
literals are `digits [. digits] [(e|E) digits]` with a nonempty mantissa
digit part; no sign, `nan` or `inf` spelling is reachable. -/

/-- Split at the first `e`/`E`, if any. -/
def splitOnExp : List Char → List Char × Option (List Char)
  | [] => ([], none)
  | c :: cs =>
    if c == 'e' || c == 'E' then ([], some cs)
    else
      let mr := splitOnExp cs
      (c :: mr.1, mr.2)

/-- Parse the mantissa `digits [. digits]` (at least one digit in total):
returns the digits' value and the length of the fractional part. -/
def parseMantissa (l : List Char) : Option (ℕ × ℕ) :=
  let intPart := l.takeWhile isAsciiDigit
  let rest := l.dropWhile isAsciiDigit
  match rest with
  | [] => if intPart.isEmpty then none else some (natOfDigits intPart, 0)
  | c :: frac =>
    if c == '.' && frac.all isAsciiDigit && !(intPart.isEmpty && frac.isEmpty) then
      some (natOfDigits (intPart ++ frac), frac.length)
    else none

/-- Parse a `float()` literal over the filtered alphabet into its exact
decimal value `N * 10^E`; `none` is `float()` raising `ValueError`. -/
def parseDecimal (l : List Char) : Option (ℕ × ℤ) :=
  match splitOnExp l with
  | (m, none) => (parseMantissa m).map (fun Nf => (Nf.1, -(Nf.2 : ℤ)))
  | (m, some ex) =>
    if !ex.isEmpty && ex.all isAsciiDigit then
      (parseMantissa m).map (fun Nf => (Nf.1, (natOfDigits ex : ℤ) - (Nf.2 : ℤ)))
    else none

/-- The binary64 value of the exact decimal `N * 10^E`. -/
def pyFloatOfNE (N : ℕ) (E : ℤ) : PyFloat :=
  roundToDouble (N * 10 ^ E.toNat) (10 ^ (-E).toNat)

/-! ## `to_int_from_text` (src/main.py lines 64-79) -/

/-- The body of `to_int_from_text` after the two filters of the stripped text
have been taken (`cleaned` keeps `0-9.eE`; `digits_only` keeps `str.isdigit`
characters; both are functions of the stripped input, evaluation order is
immaterial for these pure values):

```
if cleaned == "": return None
try: return int(float(cleaned))
except ValueError:
    return int(digits_only) if digits_only else None
```

`float(cleaned)` raising `ValueError` is `parseDecimal = none`; `int()` of an
infinite float raises `OverflowError`, which propagates. -/
def toIntCore (cleaned digits_only : List Char) : Except PyErr (Option ℤ) :=
  if cleaned.isEmpty then .ok none
  else
    match parseDecimal cleaned with
    | some NE => (pyIntTrunc (pyFloatOfNE NE.1 NE.2)).map some
    | none => if digits_only.isEmpty then .ok none else pyIntOfDigits digits_only

/-- Model of `to_int_from_text(value_text)`: `None` input gives `None`; otherwise strip,
filter to `0-9.eE`, parse as float and truncate, falling back on `ValueError`
to the digits (per `str.isdigit`) of the stripped text. -/
def to_int_from_text : Option String → Except PyErr (Option ℤ)
  | none => .ok none
  | some s =>
    let text := pyStrip s.data
    toIntCore (text.filter isAllowed) (text.filter pyIsdigit)

/-! ## HTML document model (BeautifulSoup)

A parsed document is a forest of nodes; an element node carries its tag name
and its `class` attribute values.  The CSS selectors used by the source
(`div.country`, `h3.country-name`, `.country-name`, `.country-capital`,
`.country-population`, `.country-area`) only constrain tag name and class, so
this is all the structure the embedding needs.  `soup.select` returns matches
in document (pre-order) order; `tag.select_one` searches strict descendants
only. -/

inductive Node where
  | text (s : String)
  | tag (name : String) (classes : List String) (children : List Node)

mutual
/-- All strict descendants of a node, in document (pre-order) order. -/
def descendants : Node → List Node
  | .text _ => []
  | .tag _ _ children => descForest children
/-- Each node of a forest followed by its descendants, in document order. -/
def descForest : List Node → List Node
  | [] => []
  | n :: ns => n :: descendants n ++ descForest ns
end

mutual
/-- The text fragments below a node, in document order. -/
def textSegs : Node → List String
  | .text s => [s]
  | .tag _ _ children => textSegsForest children
/-- The text fragments of a forest, in document order. -/
def textSegsForest : List Node → List String
  | [] => []
  | n :: ns => textSegs n ++ textSegsForest ns
end

/-- BeautifulSoup `get_text()`: concatenation of all text fragments. -/
def getText (n : Node) : String := String.join (textSegs n)

/-- BeautifulSoup `get_text(strip=True)`: each fragment is stripped before
concatenation (whitespace-only fragments contribute nothing). -/
def getTextStrip (n : Node) : String := String.join ((textSegs n).map pyStripStr)

/-- The tag name of an element (`tag.name` in BeautifulSoup). -/
def Node.tagName : Node → String
  | .text _ => ""
  | .tag nm _ _ => nm

/-- Whether a node is an element carrying the given `class` value. -/
def hasCl (c : String) : Node → Bool
  | .text _ => false
  | .tag _ classes _ => classes.contains c

/-- CSS selector `div.country` (primary row selector, src/main.py line 87). -/
def isPrimaryCard (n : Node) : Bool := n.tagName == "div" && hasCl "country" n

/-- CSS selector `h3.country-name` (fallback selector, line 90). -/
def isFallbackCard (n : Node) : Bool := n.tagName == "h3" && hasCl "country-name" n

/-- All nodes of the document forest in pre-order (the search space of
`soup.select`). -/
def allNodes (doc : List Node) : List Node := descForest doc

/-- `soup.select(sel)`: all matching nodes, in document order. -/
def selectAll (doc : List Node) (p : Node → Bool) : List Node := (allNodes doc).filter p

/-- `card.select_one(sel)`: the first matching strict descendant, if any. -/
def selectOne (n : Node) (p : Node → Bool) : Option Node := (descendants n).find? p

/-! ## `scrape_countries_data` (src/main.py lines 82-129) -/

/-- One extracted row (the dict built at lines 123-128). -/
structure CountryRecord where
  country_name : String
  capital : Option String
  population : Option ℤ
  area : Option ℤ
deriving DecidableEq, Repr

/-- Python list slicing `l[:k]` for an arbitrary integer `k`
(`country_cards[:limit]`, line 92): a nonnegative `k` takes the first `k`
items; a negative `k` drops the last `-k`. -/
def pySlice {α : Type} (l : List α) (k : ℤ) : List α :=
  if 0 ≤ k then l.take k.toNat else l.take (l.length - (-k).toNat)

/-- A numeric field of a card (lines 110-120): `None` when the sub-element is
absent or its stripped text is empty, otherwise `to_int_from_text` on the raw
text — whose exceptions propagate. -/
def numField (card : Node) (cls : String) : Except PyErr (Option ℤ) :=
  match selectOne card (hasCl cls) with
  | some t => if getTextStrip t ≠ "" then to_int_from_text (some (getText t)) else .ok none
  | none => .ok none

/-- The per-card body of the loop in `scrape_countries_data` (lines 92-128):
four independent optional lookups; the name falls back to the card's own text
when the card is an `h3` (the fallback-selector case); population and area go
through `to_int_from_text` (population first), whose exceptions propagate out
of the loop. -/
def extractCard (card : Node) : Except PyErr CountryRecord :=
  let name_tag := selectOne card (hasCl "country-name")
  let name : Option String :=
    match name_tag with
    | some t =>
      if getTextStrip t ≠ "" then some (getTextStrip t)
      else if card.tagName == "h3" then some (getTextStrip card) else none
    | none => if card.tagName == "h3" then some (getTextStrip card) else none
  let capital : Option String :=
    match selectOne card (hasCl "country-capital") with
    | some t => if getTextStrip t ≠ "" then some (getTextStrip t) else none
    | none => none
  match numField card "country-population" with
  | .error e => .error e
  | .ok population =>
    match numField card "country-area" with
    | .error e => .error e
    | .ok area =>
      .ok { country_name := name.getD "", capital := capital,
            population := population, area := area }

/-- The `for` loop of `scrape_countries_data`: one record appended per card,
in order; an exception raised by an iteration aborts the loop. -/
def extractAll : List Node → Except PyErr (List CountryRecord)
  | [] => .ok []
  | c :: cs =>
    match extractCard c with
    | .error e => .error e
    | .ok r =>
      match extractAll cs with
      | .error e => .error e
      | .ok rs => .ok (r :: rs)

/-- `scrape_countries_data(soup, limit)`: `None` soup gives `[]`; otherwise
select `div.country` cards, falling back to `h3.country-name` when none match,
truncate to `limit` (Python slice), and extract one record per card. -/
def scrape_countries_data (soup : Option (List Node)) (limit : ℤ) :
    Except PyErr (List CountryRecord) :=
  match soup with
  | none => .ok []
  | some doc =>
    let cards0 := selectAll doc isPrimaryCard
    let cards := if cards0.isEmpty then selectAll doc isFallbackCard else cards0
    extractAll (pySlice cards limit)

/-- The selected candidate list (primary cards, else fallback cards). -/
def selectCards (doc : List Node) : List Node :=
  let cards0 := selectAll doc isPrimaryCard
  if cards0.isEmpty then selectAll doc isFallbackCard else cards0

/-- A well-formed sample card, for concrete runs. -/
def sampleCard (nm cap pop ar : String) : Node :=
  .tag "div" ["country"]
    [.tag "h3" ["country-name"] [.text nm],
     .tag "div" ["country-info"]
       [.tag "span" ["country-capital"] [.text cap],
        .tag "span" ["country-population"] [.text pop],
        .tag "span" ["country-area"] [.text ar]]]

/-! ## Store model (sqlite) and the orchestrator `main`
(src/main.py lines 24-45, 133-143, 147-164, 168-187) -/

/-- The destination table: persisted rows with their surrogate ids, plus the
AUTOINCREMENT sequence (which `DELETE FROM` does not reset). -/
structure Db where
  rows : List (ℕ × CountryRecord)
  nextId : ℕ
deriving DecidableEq, Repr

/-- `init_db` (lines 24-45): `CREATE TABLE IF NOT EXISTS` then `DELETE FROM` —
clear the table, keeping the id sequence.  (Failures of the store itself are
outside the model; the store is assumed healthy.) -/
def init_db (db : Db) : Db := { rows := [], nextId := db.nextId }

/-- Surrogate id assignment for a batch insert, in insertion order. -/
def assignIds (start : ℕ) : List CountryRecord → List (ℕ × CountryRecord)
  | [] => []
  | r :: rs => (start, r) :: assignIds (start + 1) rs

/-- `save_batch` (lines 133-143): insert all records in one transaction, ids
assigned by the store in insertion order. -/
def save_batch (db : Db) (records : List CountryRecord) : Db :=
  { rows := db.rows ++ assignIds db.nextId records
    nextId := db.nextId + records.length }

/-- `SELECT SUM(population)` (line 158): SQL `SUM` ignores NULLs and is NULL
when no non-null value exists. -/
def totalPopulation (db : Db) : Option ℤ :=
  let vals := db.rows.filterMap (fun ir => ir.2.population)
  if vals.isEmpty then none else some vals.sum

/-- Python `print` of an optional string: `None` prints as `None`. -/
def optionStr : Option String → String
  | none => "None"
  | some s => s

/-- Python `print` of an optional integer: `None` prints as `None`. -/
def optionIntStr : Option ℤ → String
  | none => "None"
  | some n => toString n

/-- One printed row of the report (line 156). -/
def rowLine (ir : ℕ × CountryRecord) : String :=
  "id=" ++ toString ir.1 ++ " | Country=" ++ ir.2.country_name ++
  " | Capital=" ++ optionStr ir.2.capital ++
  " | Population=" ++ optionIntStr ir.2.population ++
  " | Area(km^2)=" ++ optionIntStr ir.2.area

/-- `report` (lines 147-164): success banner, the first five rows by id (the
model keeps rows in id order), and the population total. -/
def report (db : Db) : List String :=
  "Scraping and saving completed successfully." ::
    "--- First 5 Records ---" ::
    (db.rows.take 5).map rowLine ++
    ["--------------------",
     "Total Population for 20 records: " ++ optionIntStr (totalPopulation db)]

/-- `main` (lines 168-187), as a function of the initial store contents and of
the fetch outcome (`fetch_and_parse` returns `None` on any request error, so
the network is summarised by an `Option` document).  Returns the final store
and the lines printed by `main`/`report`.  Note the order of effects: `init_db`
— which clears the table — runs before the fetch result is inspected; and the
bare `except` at line 182 silently swallows exceptions escaping
`scrape_countries_data`.  (Named `mainRun` because Lean reserves `main` for
executables.) -/
def mainRun (db : Db) (fetched : Option (List Node)) : Db × List String :=
  let db1 := init_db db
  match fetched with
  | none => (db1, ["Could not access website or content retrieval failed. Program halted."])
  | some doc =>
    match scrape_countries_data (some doc) 20 with
    | .error _ => (db1, [])
    | .ok records =>
      if records.isEmpty then (db1, ["No data found to save. Program halted."])
      else
        let db2 := save_batch db1 records
        (db2, report db2)

/-- The relation "the second list is the first with extra space characters
inserted" (anywhere, any number of them). -/
inductive SpIns : List Char → List Char → Prop
  | nil : SpIns [] []
  | keep (c : Char) {s t : List Char} : SpIns s t → SpIns (c :: s) (c :: t)
  | space {s t : List Char} : SpIns s t → SpIns s (' ' :: t)

/-- Concrete inputs used in counterexamples and witnesses below. -/
def dbPrior : Db :=
  { rows := [(1, ⟨"France", some "Paris", some 67000000, some 640679⟩)], nextId := 2 }

/-- A document with two primary (`div.country`) cards. -/
def docC4 : List Node := [.tag "div" ["country"] [], .tag "div" ["country"] []]

/-- A document with one primary card. -/
def docC5 : List Node := [.tag "div" ["country"] []]

/-- An `h3.country-name` fallback candidate whose only child is a text node. -/
def cardC6 : Node := .tag "h3" ["country-name"] [.text "France"]

/-- A document whose only candidate is the fallback card `cardC6`. -/
def docC6 : List Node := [cardC6]

/-- A childless primary card (all four sub-element lookups absent). -/
def cardEmpty : Node := .tag "div" ["country"] []

/-- A document with two primary cards, for the record-count witness. -/
def docC9 : List Node := [.tag "div" ["country"] [], .tag "div" ["country"] []]

/-! ## Sanity checks of the embedding on concrete inputs -/

example : to_int_from_text none = .ok none := rfl
example : to_int_from_text (some "") = .ok none := rfl
example : to_int_from_text (some "N/A") = .ok none := by decide
example : to_int_from_text (some "21,500,000") = .ok (some 21500000) := by decide
example : to_int_from_text (some "1,234,567 km²") = .ok (some 1234567) := by decide
example : to_int_from_text (some "1.25e3") = .ok (some 1250) := by decide
example : to_int_from_text (some " 38 250 000 ") = .ok (some 38250000) := by decide
example : to_int_from_text (some "2.5") = .ok (some 2) := by decide
example : to_int_from_text (some "e3") = .ok (some 3) := by decide
example : to_int_from_text (some "...") = .ok none := by decide
example : to_int_from_text (some "1e400") = .error .overflowError := by decide
example : to_int_from_text (some "e²") = .error .valueError := by decide
example : to_int_from_text (some "9007199254740993") = .ok (some 9007199254740992) := by
  decide

example :
    scrape_countries_data (some [sampleCard "Andorra" "Andorra la Vella" "84000" "468.0"]) 20 =
      .ok [⟨"Andorra", some "Andorra la Vella", some 84000, some 468⟩] := by decide

example : scrape_countries_data (some []) 20 = .ok [] := rfl

example :
    scrape_countries_data (some [.tag "h3" ["country-name"] [.text " France "]]) 20 =
      .ok [⟨"France", none, none, none⟩] := by decide

example :
    scrape_countries_data (some [.tag "div" ["country"] []]) 20 =
      .ok [⟨"", none, none, none⟩] := by decide

example :
    (mainRun { rows := [(1, ⟨"Old", none, none, none⟩)], nextId := 2 }
      (some [sampleCard "Andorra" "Andorra la Vella" "84000" "468.0"])).1 =
    { rows := [(2, ⟨"Andorra", some "Andorra la Vella", some 84000, some 468⟩)], nextId := 3 } := by
  decide

example :
    (mainRun { rows := [(1, ⟨"Old", none, none, none⟩)], nextId := 2 } none).1 =
    { rows := [], nextId := 2 } := by decide

/-! ## Helper lemmas: the base-2 logarithm -/

theorem log2small_succ (f m : ℕ) :
    log2small (f + 1) m = if m < 2 then 0 else log2small f (m / 2) + 1 := rfl

theorem log2big_zero (m : ℕ) : log2big 0 m = log2small m m := rfl

theorem log2big_succ (f m : ℕ) :
    log2big (f + 1) m =
      if m < 18446744073709551616 then log2small m m
      else log2big f (m / 18446744073709551616) + 64 := rfl

theorem log2small_spec :
    ∀ f m : ℕ, m < 2 ^ f → 1 ≤ m →
      2 ^ log2small f m ≤ m ∧ m < 2 ^ (log2small f m + 1) := by
  intro f
  induction f with
  | zero => intro m hf hm; rw [pow_zero] at hf; omega
  | succ f ih =>
    intro m hf hm
    rw [log2small_succ]
    by_cases h2 : m < 2
    · rw [if_pos h2]
      constructor
      · simpa using hm
      · simpa using h2
    · rw [if_neg h2]
      have hm2 : 1 ≤ m / 2 := by omega
      have hf2 : m / 2 < 2 ^ f := by
        rw [pow_succ] at hf
        omega
      obtain ⟨ha, hb⟩ := ih (m / 2) hf2 hm2
      have e2 : 2 ^ (log2small f (m / 2) + 1) = 2 ^ log2small f (m / 2) * 2 := pow_succ 2 _
      have e1 : 2 ^ (log2small f (m / 2) + 1 + 1) = 2 ^ (log2small f (m / 2) + 1) * 2 :=
        pow_succ 2 _
      omega

theorem log2big_spec :
    ∀ f m : ℕ, 1 ≤ m → 2 ^ log2big f m ≤ m ∧ m < 2 ^ (log2big f m + 1) := by
  intro f
  induction f with
  | zero => intro m hm; rw [log2big_zero]; exact log2small_spec m m (Nat.lt_two_pow m) hm
  | succ f ih =>
    intro m hm
    rw [log2big_succ]
    by_cases hs : m < 18446744073709551616
    · rw [if_pos hs]; exact log2small_spec m m (Nat.lt_two_pow m) hm
    · rw [if_neg hs]
      have hq : 1 ≤ m / 18446744073709551616 := by omega
      obtain ⟨ha, hb⟩ := ih (m / 18446744073709551616) hq
      have e1 : 2 ^ (log2big f (m / 18446744073709551616) + 64) =
          2 ^ log2big f (m / 18446744073709551616) * 18446744073709551616 := by
        rw [pow_add]; norm_num
      have e2 : 2 ^ (log2big f (m / 18446744073709551616) + 64 + 1) =
          2 ^ (log2big f (m / 18446744073709551616) + 1) * 18446744073709551616 := by
        rw [show log2big f (m / 18446744073709551616) + 64 + 1 =
            log2big f (m / 18446744073709551616) + 1 + 64 by omega, pow_add]
        norm_num
      omega

theorem nlog2_spec (n : ℕ) (hn : 1 ≤ n) : 2 ^ nlog2 n ≤ n ∧ n < 2 ^ (nlog2 n + 1) :=
  log2big_spec n n hn

theorem nlog2_eq_of (n k : ℕ) (h1 : 2 ^ k ≤ n) (h2 : n < 2 ^ (k + 1)) : nlog2 n = k := by
  have hn : 1 ≤ n := by
    have h0 : 0 < 2 ^ k := pow_pos (by norm_num) k
    omega
  obtain ⟨ha, hb⟩ := nlog2_spec n hn
  rcases Nat.lt_or_ge (nlog2 n) k with hlt | hge
  · have hc : 2 ^ (nlog2 n + 1) ≤ 2 ^ k := Nat.pow_le_pow_right (by norm_num) (by omega)
    omega
  · rcases Nat.lt_or_ge k (nlog2 n) with hgt | hle
    · have hc : 2 ^ (k + 1) ≤ 2 ^ nlog2 n := Nat.pow_le_pow_right (by norm_num) (by omega)
      omega
    · omega

theorem nlog2_mul_pow (V k : ℕ) (hV : 1 ≤ V) : nlog2 (V * 2 ^ k) = nlog2 V + k := by
  obtain ⟨ha, hb⟩ := nlog2_spec V hV
  apply nlog2_eq_of
  · rw [pow_add]
    exact Nat.mul_le_mul_right _ ha
  · rw [show nlog2 V + k + 1 = nlog2 V + 1 + k by omega, pow_add]
    exact mul_lt_mul_of_pos_right hb (pow_pos two_pos k)

/-! ## Helper lemmas: exact rounding of small integers -/

theorem rhe_one (a : ℕ) : rhe a 1 = a := by
  simp [rhe, Nat.mod_one, Nat.div_one]

/-- Integers below `2^53` are exactly representable in binary64, and
`int(float(...))` returns them unchanged. -/
theorem roundToDouble_int_exact (V : ℕ) (h : V < 2 ^ 53) :
    pyIntTrunc (roundToDouble V 1) = .ok (V : ℤ) := by
  by_cases hV : V = 0
  · subst hV; decide
  · have hV1 : 1 ≤ V := Nat.one_le_iff_ne_zero.mpr hV
    obtain ⟨ha, hb⟩ := nlog2_spec V hV1
    have hL52 : nlog2 V ≤ 52 := by
      by_contra hgt
      have hc : 2 ^ 53 ≤ 2 ^ nlog2 V := Nat.pow_le_pow_right (by norm_num) (by omega)
      omega
    set L := nlog2 V with hL
    simp only [roundToDouble]
    rw [if_neg hV, Nat.div_one, nlog2_mul_pow V 1200 hV1]
    have he : ((L + 1200 : ℕ) : ℤ) - 1200 = (L : ℤ) := by push_cast; ring
    rw [← hL, he]
    have hp : max ((L : ℤ) - 52) (-1074) = (L : ℤ) - 52 := max_eq_left (by omega)
    rw [hp]
    have hup : (-((L : ℤ) - 52)).toNat = 52 - L := by omega
    have hdn : ((L : ℤ) - 52).toNat = 0 := by omega
    rw [hup, hdn]
    have hone : 1 * 2 ^ 0 = 1 := by norm_num
    rw [hone, rhe_one]
    have hguard : ¬ 2 ^ (1024 + (52 - L)) ≤ V * 2 ^ (52 - L) * 2 ^ 0 := by
      rw [pow_zero, mul_one, pow_add]
      intro hcon
      have hVlt : V < 2 ^ 1024 :=
        lt_of_lt_of_le h (Nat.pow_le_pow_right (by norm_num) (by norm_num))
      have hmul := mul_lt_mul_of_pos_right hVlt (pow_pos two_pos (52 - L))
      omega
    rw [if_neg hguard]
    simp only [pyIntTrunc, pow_zero, mul_one]
    rw [Nat.mul_div_cancel V (pow_pos two_pos (52 - L))]

/-! ## Helper lemmas: parsing pure digit strings -/

theorem splitOnExp_digits : ∀ {l : List Char}, l.all isAsciiDigit = true →
    splitOnExp l = (l, none) := by
  intro l
  induction l with
  | nil => intro _; rfl
  | cons c cs ih =>
    intro h
    rw [List.all_cons, Bool.and_eq_true] at h
    obtain ⟨h1, h2⟩ := h
    have hne : (c == 'e' || c == 'E') = false := by
      have he : c ≠ 'e' := by intro hc; subst hc; exact absurd h1 (by decide)
      have hE : c ≠ 'E' := by intro hc; subst hc; exact absurd h1 (by decide)
      simp [he, hE]
    simp only [splitOnExp, hne]
    simp [ih h2]

theorem takeWhile_all {p : Char → Bool} :
    ∀ {l : List Char}, l.all p = true → l.takeWhile p = l := by
  intro l
  induction l with
  | nil => intro _; rfl
  | cons c cs ih =>
    intro h
    rw [List.all_cons, Bool.and_eq_true] at h
    rw [List.takeWhile_cons, if_pos h.1, ih h.2]

theorem dropWhile_all {p : Char → Bool} :
    ∀ {l : List Char}, l.all p = true → l.dropWhile p = [] := by
  intro l
  induction l with
  | nil => intro _; rfl
  | cons c cs ih =>
    intro h
    rw [List.all_cons, Bool.and_eq_true] at h
    rw [List.dropWhile_cons, if_pos h.1, ih h.2]

theorem parseMantissa_digits {l : List Char} (hne : l ≠ [])
    (h : l.all isAsciiDigit = true) : parseMantissa l = some (natOfDigits l, 0) := by
  simp only [parseMantissa, takeWhile_all h, dropWhile_all h]
  rw [if_neg]
  simp [List.isEmpty_iff, hne]

theorem parseDecimal_digits {l : List Char} (hne : l ≠ [])
    (h : l.all isAsciiDigit = true) : parseDecimal l = some (natOfDigits l, 0) := by
  simp only [parseDecimal, splitOnExp_digits h, parseMantissa_digits hne h]
  simp

theorem toIntCore_digits {cleaned digits_only : List Char}
    (hne : cleaned ≠ []) (h : cleaned.all isAsciiDigit = true)
    (hlt : natOfDigits cleaned < 2 ^ 53) :
    toIntCore cleaned digits_only = .ok (some ((natOfDigits cleaned : ℕ) : ℤ)) := by
  simp only [toIntCore]
  rw [if_neg (by simp [List.isEmpty_iff, hne])]
  rw [parseDecimal_digits hne h]
  simp only [pyFloatOfNE]
  norm_num
  rw [roundToDouble_int_exact _ hlt]
  rfl

/-! ## Helper lemmas: the two filters ignore stripping and inserted spaces -/

theorem filter_dropWhile {p q : Char → Bool} (hpq : ∀ c, q c = true → p c = false) :
    ∀ l : List Char, (l.dropWhile q).filter p = l.filter p := by
  intro l
  induction l with
  | nil => rfl
  | cons c cs ih =>
    rw [List.dropWhile_cons]
    by_cases hq : q c = true
    · rw [if_pos hq, ih, List.filter_cons, hpq c hq]
      simp
    · rw [if_neg hq]

theorem filter_pyStrip {p : Char → Bool} (hp : ∀ c, pyIsSpace c = true → p c = false)
    (l : List Char) : (pyStrip l).filter p = l.filter p := by
  unfold pyStrip
  rw [List.filter_reverse, filter_dropWhile hp, List.filter_reverse,
    List.reverse_reverse, filter_dropWhile hp]

theorem pyIsSpace_not_allowed {c : Char} (h : pyIsSpace c = true) : isAllowed c = false := by
  simp only [pyIsSpace, Bool.or_eq_true, beq_iff_eq] at h
  rcases h with ((((h | h) | h) | h) | h) | h <;> subst h <;> decide

theorem pyIsSpace_not_pyIsdigit {c : Char} (h : pyIsSpace c = true) : pyIsdigit c = false := by
  simp only [pyIsSpace, Bool.or_eq_true, beq_iff_eq] at h
  rcases h with ((((h | h) | h) | h) | h) | h <;> subst h <;> decide

theorem filter_allowed_eq_digits {l : List Char}
    (h : ∀ c ∈ l, c ≠ '.' ∧ c ≠ 'e' ∧ c ≠ 'E') :
    l.filter isAllowed = l.filter isAsciiDigit := by
  induction l with
  | nil => rfl
  | cons c cs ih =>
    have hc := h c (List.mem_cons_self c cs)
    have hcs : ∀ x ∈ cs, x ≠ '.' ∧ x ≠ 'e' ∧ x ≠ 'E' :=
      fun x hx => h x (List.mem_cons_of_mem _ hx)
    have hca : isAllowed c = isAsciiDigit c := by
      obtain ⟨h1, h2, h3⟩ := hc
      have b1 : (c == '.') = false := beq_eq_false_iff_ne.mpr h1
      have b2 : (c == 'e') = false := beq_eq_false_iff_ne.mpr h2
      have b3 : (c == 'E') = false := beq_eq_false_iff_ne.mpr h3
      simp [isAllowed, b1, b2, b3]
    rw [List.filter_cons, List.filter_cons, hca, ih hcs]

theorem filter_all_self {p : Char → Bool} (l : List Char) :
    (l.filter p).all p = true := by
  rw [List.all_eq_true]
  intro x hx
  exact (List.mem_filter.mp hx).2

/-! ## Helper lemmas: the extraction loop -/

theorem to_int_some_eq (s : String) :
    to_int_from_text (some s) =
      toIntCore ((pyStrip s.data).filter isAllowed) ((pyStrip s.data).filter pyIsdigit) := rfl

theorem scrape_eq_extractAll (doc : List Node) (limit : ℤ) :
    scrape_countries_data (some doc) limit = extractAll (pySlice (selectCards doc) limit) := rfl

theorem extractAll_ok_forall₂ :
    ∀ {cs : List Node} {rs : List CountryRecord}, extractAll cs = .ok rs →
      List.Forall₂ (fun c r => extractCard c = .ok r) cs rs := by
  intro cs
  induction cs with
  | nil =>
    intro rs h
    injection h with h'
    subst h'
    exact List.Forall₂.nil
  | cons c cs ih =>
    intro rs h
    simp only [extractAll] at h
    cases hc : extractCard c with
    | error e => rw [hc] at h; exact Except.noConfusion h
    | ok r =>
      rw [hc] at h
      cases ha : extractAll cs with
      | error e => rw [ha] at h; exact Except.noConfusion h
      | ok rs' =>
        rw [ha] at h
        injection h with h'
        subst h'
        exact List.Forall₂.cons hc (ih ha)

theorem extractAll_ok_length {cs : List Node} {rs : List CountryRecord}
    (h : extractAll cs = .ok rs) : rs.length = cs.length :=
  ((extractAll_ok_forall₂ h).length_eq).symm

theorem forall₂_getElem {R : Node → CountryRecord → Prop} :
    ∀ {cs rs}, List.Forall₂ R cs rs →
      ∀ {i : ℕ} {c : Node}, cs[i]? = some c → ∃ r, rs[i]? = some r ∧ R c r := by
  intro cs rs hf
  induction hf with
  | nil => intro i c h; simp at h
  | cons hR hf ih =>
    intro i c h
    cases i with
    | zero =>
      rw [List.getElem?_cons_zero] at h
      injection h with h'
      subst h'
      exact ⟨_, List.getElem?_cons_zero, hR⟩
    | succ i =>
      rw [List.getElem?_cons_succ] at h
      obtain ⟨r, hr, hRr⟩ := ih h
      exact ⟨r, by rw [List.getElem?_cons_succ]; exact hr, hRr⟩

theorem forall₂_mem {R : Node → CountryRecord → Prop} :
    ∀ {cs rs}, List.Forall₂ R cs rs → ∀ {r}, r ∈ rs → ∃ c ∈ cs, R c r := by
  intro cs rs hf
  induction hf with
  | nil => intro r h; simp at h
  | cons hR hf ih =>
    intro r h
    rcases List.mem_cons.mp h with h | h
    · subst h; exact ⟨_, List.mem_cons_self _ _, hR⟩
    · obtain ⟨c, hc, hR'⟩ := ih h
      exact ⟨c, List.mem_cons_of_mem _ hc, hR'⟩

theorem pySlice_nonneg {α : Type} (l : List α) {k : ℤ} (hk : 0 ≤ k) :
    pySlice l k = l.take k.toNat := by
  unfold pySlice
  rw [if_pos hk]

theorem pySlice_front {α : Type} (l : List α) (k : ℤ) : pySlice l k <+: l := by
  unfold pySlice
  by_cases hk : 0 ≤ k
  · rw [if_pos hk]; exact ⟨l.drop k.toNat, List.take_append_drop _ _⟩
  · rw [if_neg hk]; exact ⟨_, List.take_append_drop _ _⟩

theorem pySlice_length_le {α : Type} (l : List α) {k : ℤ} (hk : 0 ≤ k) :
    (pySlice l k).length ≤ k.toNat := by
  rw [pySlice_nonneg l hk, List.length_take]
  exact min_le_left _ _

/-! ## Helper lemmas: nonnegativity of parsed numbers -/

theorem toIntCore_nonneg {cleaned digits_only : List Char} {n : ℤ}
    (h : toIntCore cleaned digits_only = .ok (some n)) : 0 ≤ n := by
  simp only [toIntCore] at h
  split at h
  · exact absurd (Except.ok.inj h) (by simp)
  · split at h
    · rename_i NE heq
      cases hf : pyFloatOfNE NE.1 NE.2 with
      | finite M up dn =>
        rw [hf] at h
        simp only [pyIntTrunc, Except.map] at h
        have h' : some ((M * 2 ^ dn / 2 ^ up : ℕ) : ℤ) = some n := Except.ok.inj h
        injection h' with h''
        rw [← h'']
        exact Int.natCast_nonneg _
      | inf =>
        rw [hf] at h
        simp only [pyIntTrunc, Except.map] at h
        exact Except.noConfusion h
    · split at h
      · exact absurd (Except.ok.inj h) (by simp)
      · unfold pyIntOfDigits at h
        split at h
        · have h' := Except.ok.inj h
          injection h' with h''
          rw [← h'']
          exact Int.natCast_nonneg _
        · exact Except.noConfusion h

theorem to_int_nonneg {s : String} {n : ℤ}
    (h : to_int_from_text (some s) = .ok (some n)) : 0 ≤ n := by
  rw [to_int_some_eq] at h
  exact toIntCore_nonneg h

theorem numField_nonneg {card : Node} {cls : String} {p : Option ℤ}
    (h : numField card cls = .ok p) : ∀ n, p = some n → 0 ≤ n := by
  intro n hn
  subst hn
  unfold numField at h
  split at h
  · split at h
    · exact to_int_nonneg h
    · exact absurd (Except.ok.inj h) (by simp)
  · exact absurd (Except.ok.inj h) (by simp)

theorem extractCard_ok_fields {card : Node} {r : CountryRecord}
    (h : extractCard card = .ok r) :
    (∀ n, r.population = some n → 0 ≤ n) ∧ (∀ n, r.area = some n → 0 ≤ n) := by
  simp only [extractCard] at h
  cases hp : numField card "country-population" with
  | error e => rw [hp] at h; exact Except.noConfusion h
  | ok p =>
    rw [hp] at h
    cases ha : numField card "country-area" with
    | error e => rw [ha] at h; exact Except.noConfusion h
    | ok a =>
      rw [ha] at h
      have h' := Except.ok.inj h
      subst h'
      exact ⟨numField_nonneg hp, numField_nonneg ha⟩

/-! ## Helper lemmas: inserting spaces -/

theorem SpIns.filter_eq {p : Char → Bool} (hp : p ' ' = false) :
    ∀ {s t : List Char}, SpIns s t → t.filter p = s.filter p := by
  intro s t h
  induction h with
  | nil => rfl
  | keep c h ih => rw [List.filter_cons, List.filter_cons, ih]
  | space h ih =>
    rw [List.filter_cons, hp]
    simpa using ih

/-! ## Helper lemmas: empty cards and empty candidate lists -/

theorem numField_of_absent {card : Node} {cls : String}
    (h : selectOne card (hasCl cls) = none) : numField card cls = .ok none := by
  unfold numField
  rw [h]

theorem extractCard_empty {card : Node}
    (hn : selectOne card (hasCl "country-name") = none)
    (hc : selectOne card (hasCl "country-capital") = none)
    (hp : selectOne card (hasCl "country-population") = none)
    (ha : selectOne card (hasCl "country-area") = none)
    (hh3 : card.tagName ≠ "h3") :
    extractCard card = .ok ⟨"", none, none, none⟩ := by
  have hb : (card.tagName == "h3") = false := beq_eq_false_iff_ne.mpr hh3
  simp only [extractCard, hn, hc, hb, numField_of_absent hp, numField_of_absent ha]
  rfl

theorem selectCards_empty_iff (doc : List Node) :
    selectCards doc = [] ↔
      selectAll doc isPrimaryCard = [] ∧ selectAll doc isFallbackCard = [] := by
  unfold selectCards
  by_cases hp : (selectAll doc isPrimaryCard).isEmpty
  · rw [if_pos hp]
    have he : selectAll doc isPrimaryCard = [] := List.isEmpty_iff.mp hp
    simp [he]
  · rw [if_neg hp]
    have he : selectAll doc isPrimaryCard ≠ [] := by
      simpa [List.isEmpty_iff] using hp
    constructor
    · intro h; exact absurd h he
    · intro h; exact absurd h.1 he

theorem scrape_ok_length {doc : List Node} {limit : ℤ} {recs : List CountryRecord}
    (h : scrape_countries_data (some doc) limit = .ok recs) :
    recs.length = (pySlice (selectCards doc) limit).length := by
  rw [scrape_eq_extractAll] at h
  exact extractAll_ok_length h

/-! # The claims -/

/-- **C1** (code bug): the spec requires that `to_int_from_text` never raise
and that every failure path return `None`; but on input `"1e400"` the filtered
string overflows `float()` to `inf`, and `int(inf)` raises `OverflowError`,
which the `except ValueError` at line 76 does not catch — the call raises. -/
theorem c1_raises_on_overflow :
    to_int_from_text (some "1e400") = .error .overflowError := by decide

/-- **C2** (counterexample): on a fetch failure the run has still mutated the
persistent store: `init_db` already cleared the table before the fetch, so a
pre-existing row is deleted by the run. -/
theorem c2_cex_store_mutated :
    (mainRun dbPrior none).1.rows = [] ∧ dbPrior.rows ≠ [] := by decide

/-- **C2** (amended): if the fetch fails, the job halts with the halt message
and inserts no rows; but the destination table has already been cleared by
`init_db` before the fetch, so the run ends with an empty table — pre-existing
rows are deleted — with the id sequence preserved. -/
theorem c2_fetch_failure :
    ∀ db : Db, mainRun db none =
      ({ rows := [], nextId := db.nextId },
       ["Could not access website or content retrieval failed. Program halted."]) :=
  fun _ => rfl

/-- **C3** (counterexample): `"9007199254740993"` (2^53 + 1) consists solely of
digit characters, but the float path rounds it to the nearest even binary64
value 2^53, so the returned integer is not the integer formed by the digit
characters. -/
theorem c3_cex_large_integer :
    ("9007199254740993".data.all isAsciiDigit) = true ∧
    natOfDigits "9007199254740993".data = 9007199254740993 ∧
    to_int_from_text (some "9007199254740993") = .ok (some 9007199254740992) := by decide

/-- **C3** (amended): for every input made of digit characters and separator
characters (anything other than `.`, `e`, `E`), with at least one digit, whose
digit value is below 2^53 (the exactly-representable range of binary64),
`to_int_from_text` returns exactly the integer formed by the digit characters
in order. -/
theorem c3_digits_with_separators (s : String)
    (hsep : ∀ c ∈ s.data, c ≠ '.' ∧ c ≠ 'e' ∧ c ≠ 'E')
    (hdig : s.data.filter isAsciiDigit ≠ [])
    (hlt : natOfDigits (s.data.filter isAsciiDigit) < 2 ^ 53) :
    to_int_from_text (some s) =
      .ok (some ((natOfDigits (s.data.filter isAsciiDigit) : ℕ) : ℤ)) := by
  rw [to_int_some_eq]
  have h1 : (pyStrip s.data).filter isAllowed = s.data.filter isAsciiDigit := by
    rw [filter_pyStrip (fun c h => pyIsSpace_not_allowed h)]
    exact filter_allowed_eq_digits hsep
  rw [h1]
  exact toIntCore_digits hdig (filter_all_self _) hlt

/-- Witness for C3 at the spec's own example input. -/
theorem c3_witness :
    to_int_from_text (some "1,234,567 km²") =
      .ok (some ((natOfDigits ("1,234,567 km²".data.filter isAsciiDigit) : ℕ) : ℤ)) ∧
    ((natOfDigits ("1,234,567 km²".data.filter isAsciiDigit) : ℕ) : ℤ) = 1234567 :=
  ⟨c3_digits_with_separators "1,234,567 km²" (by decide) (by decide) (by decide), by decide⟩

/-- **C4** (counterexample): with `limit = -1` (a Python slice dropping only
the last element) the extractor returns one record from a two-card document,
and `1 ≤ -1` fails: the claim is false for negative limits. -/
theorem c4_cex_negative_limit :
    scrape_countries_data (some docC4) (-1) = .ok [⟨"", none, none, none⟩] ∧
    ¬ ((([(⟨"", none, none, none⟩ : CountryRecord)] : List CountryRecord).length : ℤ) ≤ -1) := by
  decide

/-- **C4** (amended): for every nonnegative limit, a successful run returns at
most `limit` records; each record corresponds (in order) to a candidate of the
truncated candidate list, which is an initial segment of the document-ordered
candidate list. -/
theorem c4_limit_and_order (doc : List Node) (limit : ℤ) (recs : List CountryRecord)
    (h0 : 0 ≤ limit) (hok : scrape_countries_data (some doc) limit = .ok recs) :
    ((recs.length : ℤ) ≤ limit) ∧
    List.Forall₂ (fun c r => extractCard c = .ok r) (pySlice (selectCards doc) limit) recs ∧
    pySlice (selectCards doc) limit <+: selectCards doc := by
  rw [scrape_eq_extractAll] at hok
  refine ⟨?_, extractAll_ok_forall₂ hok, pySlice_front _ _⟩
  have h1 := extractAll_ok_length hok
  have h2 := pySlice_length_le (selectCards doc) h0
  omega

/-- Witness for C4 on the empty document with limit 5. -/
theorem c4_witness :
    ((([] : List CountryRecord).length : ℤ) ≤ 5) ∧
    List.Forall₂ (fun c r => extractCard c = .ok r) (pySlice (selectCards []) 5) [] ∧
    pySlice (selectCards []) 5 <+: selectCards [] :=
  c4_limit_and_order [] 5 [] (by decide) (by decide)

/-- **C5** (counterexample): with `limit = 0` and a document containing a
matching primary container, the extractor still returns zero records: "zero
records iff no candidate matches" fails at limit 0. -/
theorem c5_cex_zero_limit :
    scrape_countries_data (some docC5) 0 = .ok [] ∧
    selectAll docC5 isPrimaryCard = [cardEmpty] ∧
    ([cardEmpty] : List Node) ≠ [] :=
  ⟨by decide, rfl, List.cons_ne_nil _ _⟩

/-- **C5** (amended): for every positive limit, a successful run returns zero
records iff neither the primary selector nor the fallback selector matches any
element of the document. -/
theorem c5_empty_iff (doc : List Node) (limit : ℤ) (recs : List CountryRecord)
    (h0 : 0 < limit) (hok : scrape_countries_data (some doc) limit = .ok recs) :
    (recs = [] ↔
      selectAll doc isPrimaryCard = [] ∧ selectAll doc isFallbackCard = []) := by
  rw [← selectCards_empty_iff]
  have hlen := scrape_ok_length hok
  rw [pySlice_nonneg _ (le_of_lt h0), List.length_take] at hlen
  constructor
  · intro hre
    rw [hre] at hlen
    simp only [List.length_nil] at hlen
    rcases Nat.min_eq_zero_iff.mp hlen.symm with h | h
    · omega
    · exact List.length_eq_zero.mp h
  · intro hsel
    rw [hsel] at hlen
    simp only [List.length_nil, Nat.min_zero] at hlen
    exact List.length_eq_zero.mp hlen

/-- Witness for C5 on the empty document with limit 3. -/
theorem c5_witness :
    (([] : List CountryRecord) = [] ↔
      selectAll [] isPrimaryCard = [] ∧ selectAll [] isFallbackCard = []) :=
  c5_empty_iff [] 3 [] (by decide) (by decide)

/-- **C6** (counterexample): all four sub-element lookups of the fallback
candidate `cardC6` are absent, yet the record extracted for it carries the
card's own text `"France"` as `country_name`, not the empty string (the card
is itself the `h3` fallback name element). -/
theorem c6_cex_h3_fallback :
    selectOne cardC6 (hasCl "country-name") = none ∧
    selectOne cardC6 (hasCl "country-capital") = none ∧
    selectOne cardC6 (hasCl "country-population") = none ∧
    selectOne cardC6 (hasCl "country-area") = none ∧
    scrape_countries_data (some docC6) 20 = .ok [⟨"France", none, none, none⟩] ∧
    ("France" : String) ≠ "" :=
  ⟨rfl, rfl, rfl, rfl, by decide, by decide⟩

/-- **C6** (amended): a candidate within the limit, all four of whose
sub-element lookups are absent, and which is not itself an `h3` element (the
fallback name case), yields the record `⟨"", none, none, none⟩` at its
position in a successful run. -/
theorem c6_all_absent (doc : List Node) (limit : ℤ) (recs : List CountryRecord)
    (i : ℕ) (card : Node)
    (hcard : (pySlice (selectCards doc) limit)[i]? = some card)
    (hn : selectOne card (hasCl "country-name") = none)
    (hc : selectOne card (hasCl "country-capital") = none)
    (hp : selectOne card (hasCl "country-population") = none)
    (ha : selectOne card (hasCl "country-area") = none)
    (hh3 : card.tagName ≠ "h3")
    (hok : scrape_countries_data (some doc) limit = .ok recs) :
    recs[i]? = some ⟨"", none, none, none⟩ := by
  rw [scrape_eq_extractAll] at hok
  obtain ⟨r, hr, hcr⟩ := forall₂_getElem (extractAll_ok_forall₂ hok) hcard
  rw [extractCard_empty hn hc hp ha hh3] at hcr
  rw [hr, Except.ok.inj hcr]

/-- Witness for C6 on a childless primary card. -/
theorem c6_witness :
    ([(⟨"", none, none, none⟩ : CountryRecord)] : List CountryRecord)[0]? =
      some ⟨"", none, none, none⟩ :=
  c6_all_absent [cardEmpty] 7 [⟨"", none, none, none⟩] 0 cardEmpty
    rfl rfl rfl rfl rfl (by decide) (by decide)

/-- **C7** (confirmed): `"1.25e3"` takes the float path — the filtered string
parses as the exact decimal `125 * 10^1`, whose binary64 value truncates to
the integer `1250` — and the call returns `1250`. -/
theorem c7_scientific_path :
    parseDecimal ((pyStrip "1.25e3".data).filter isAllowed) = some (125, 1) ∧
    pyIntTrunc (pyFloatOfNE 125 1) = .ok 1250 ∧
    to_int_from_text (some "1.25e3") = .ok (some 1250) := by decide

/-- **C8** (confirmed): whenever `to_int_from_text` returns an integer it is
nonnegative; hence every population and area field of every record of a
successful `scrape_countries_data` run is either null or nonnegative. -/
theorem c8_nonneg :
    (∀ (s : String) (n : ℤ), to_int_from_text (some s) = .ok (some n) → 0 ≤ n) ∧
    (∀ (doc : List Node) (limit : ℤ) (recs : List CountryRecord) (r : CountryRecord),
      scrape_countries_data (some doc) limit = .ok recs → r ∈ recs →
        (∀ n, r.population = some n → 0 ≤ n) ∧ (∀ n, r.area = some n → 0 ≤ n)) := by
  constructor
  · intro s n h
    exact to_int_nonneg h
  · intro doc limit recs r hok hmem
    rw [scrape_eq_extractAll] at hok
    obtain ⟨c, _, hcr⟩ := forall₂_mem (extractAll_ok_forall₂ hok) hmem
    exact extractCard_ok_fields hcr

/-- Witness for C8 at a concrete parse and a concrete run. -/
theorem c8_witness :
    ((0 : ℤ) ≤ 84000) ∧
    ((∀ n, (⟨"Andorra", some "Andorra la Vella", some 84000, some 468⟩ :
        CountryRecord).population = some n → 0 ≤ n) ∧
     (∀ n, (⟨"Andorra", some "Andorra la Vella", some 84000, some 468⟩ :
        CountryRecord).area = some n → 0 ≤ n)) :=
  ⟨c8_nonneg.1 "84000" 84000 (by decide),
   c8_nonneg.2 [sampleCard "Andorra" "Andorra la Vella" "84000" "468.0"] 20
     [⟨"Andorra", some "Andorra la Vella", some 84000, some 468⟩]
     ⟨"Andorra", some "Andorra la Vella", some 84000, some 468⟩
     (by decide) (by decide)⟩

/-- **C9** (confirmed): for every nonnegative limit, a successful run returns
exactly `min limit (number of selected candidates)` records (candidates being
the primary matches, or the fallback matches when the primary has none). -/
theorem c9_count (doc : List Node) (limit : ℤ) (recs : List CountryRecord)
    (h0 : 0 ≤ limit) (hok : scrape_countries_data (some doc) limit = .ok recs) :
    recs.length = min limit.toNat (selectCards doc).length := by
  rw [scrape_ok_length hok, pySlice_nonneg _ h0, List.length_take]

/-- Witness for C9: two candidates, limit 1. -/
theorem c9_witness :
    ([(⟨"", none, none, none⟩ : CountryRecord)] : List CountryRecord).length =
      min (Int.toNat 1) (selectCards docC9).length :=
  c9_count docC9 1 [⟨"", none, none, none⟩] (by decide) (by decide)

/-- **C10** (confirmed): inserting space characters anywhere in the input does
not change the result of `to_int_from_text`: the result depends only on the
two space-free filtered subsequences of the input. -/
theorem c10_spaces_ignored (s t : List Char) (h : SpIns s t) :
    to_int_from_text (some ⟨t⟩) = to_int_from_text (some ⟨s⟩) := by
  have h1 : (pyStrip t).filter isAllowed = (pyStrip s).filter isAllowed := by
    rw [filter_pyStrip (fun c hc => pyIsSpace_not_allowed hc),
      filter_pyStrip (fun c hc => pyIsSpace_not_allowed hc)]
    exact SpIns.filter_eq (by decide) h
  have h2 : (pyStrip t).filter pyIsdigit = (pyStrip s).filter pyIsdigit := by
    rw [filter_pyStrip (fun c hc => pyIsSpace_not_pyIsdigit hc),
      filter_pyStrip (fun c hc => pyIsSpace_not_pyIsdigit hc)]
    exact SpIns.filter_eq (by decide) h
  rw [to_int_some_eq, to_int_some_eq]
  show toIntCore ((pyStrip t).filter isAllowed) ((pyStrip t).filter pyIsdigit) =
    toIntCore ((pyStrip s).filter isAllowed) ((pyStrip s).filter pyIsdigit)
  rw [h1, h2]

/-- Witness for C10: a space inserted inside `"42"`. -/
theorem c10_witness :
    to_int_from_text (some ⟨['4', ' ', '2']⟩) = to_int_from_text (some ⟨['4', '2']⟩) ∧
    to_int_from_text (some ⟨['4', ' ', '2']⟩) = .ok (some 42) :=
  ⟨c10_spaces_ignored ['4', '2'] ['4', ' ', '2']
    (SpIns.keep '4' (SpIns.space (SpIns.keep '2' SpIns.nil))), by decide⟩
